import Mathlib

deriving instance DecidableEq for Except

/-!
A shallow embedding of the slide-description-language front end of the
`slidy` repository (Rust): the tokenizer (`src/parser/tokenizer.rs`),
the stateful lexer/interpreter (`src/parser/lexer.rs`), the per-directive
handlers (`src/parser/utils.rs`) and the document model
(`src/slideshow.rs` / `src/windows/slideshow.rs`).

Modelling conventions:
* Rust `&str` values are modelled as `List Char`; byte offsets (Rust `str`
  indexing is byte-based) are computed with an explicit UTF-8 byte-length
  function, so the byte-vs-char distinction of the source is preserved.
* Rust `f32` is modelled as `ℚ` (exact arithmetic standing in for the
  float arithmetic of the source; every numeric computation the claims
  touch is exact in both).
* A Rust panic (`unwrap`, `expect`, slice-index/usize-underflow failure)
  is modelled as `Option.none`; a `Result::Err` as `Except.error`.
* Filesystem effects (`Path::canonicalize` in `manage_figure`, the
  recursive `parse_file` call in `manage_import`) are abstracted into an
  explicit environment `Env` passed to the functions that perform them,
  and `f32::from_str` (used by `build_token`) is abstracted as a function
  parameter `pf`.
-/

namespace Slidy

/-! ## Document model (`src/windows/slideshow.rs`, `src/slideshow.rs`) -/

/-- `Vec2` (a 2-D pair of `f32`, modelled over `ℚ`). -/
structure Vec2 where
  x : ℚ
  y : ℚ
  deriving Repr, DecidableEq

/-- `Color` with four `u8` channels (modelled as `ℕ`, always `< 256` where built). -/
structure Color where
  r : ℕ
  g : ℕ
  b : ℕ
  a : ℕ
  deriving Repr, DecidableEq

/-- `SectionText` from the document model. -/
structure SectionText where
  text : List Char
  color : Option Color
  font : Option (List Char)
  deriving Repr, DecidableEq

/-- `SectionText::default()`. -/
def SectionText.default : SectionText := ⟨[], Option.none, Option.none⟩

/-- `SectionFigure` from the document model. -/
structure SectionFigure where
  path : List Char
  rotation : ℚ
  deriving Repr, DecidableEq

/-- `SectionFigure::default()`. -/
def SectionFigure.default : SectionFigure := ⟨[], 0⟩

/-- `SectionMain`: the tagged body of a section. -/
inductive SectionMain where
  | Figure (f : SectionFigure)
  | Text (t : SectionText)
  deriving Repr, DecidableEq

/-- `Section` from the document model. -/
structure Section where
  size : Option Vec2
  position : Option Vec2
  sec_main : Option SectionMain
  deriving Repr, DecidableEq

/-- `Section::default()`. -/
def Section.default : Section := ⟨Option.none, Option.none, Option.none⟩

/-- `Slide` from the document model. -/
structure Slide where
  bg_color : Option Color
  sections : List Section
  deriving Repr, DecidableEq

/-- `Slide::default()`. -/
def Slide.default : Slide := ⟨Option.none, []⟩

/-- `Slideshow` from the document model.  The `fonts` name→path table is
part of the struct but never touched by the parsing core. -/
structure Slideshow where
  slides : List Slide
  fonts : List (List Char × List Char)
  bg_col : Option Color
  font_col : Option Color
  font_size : Option Vec2
  deriving Repr, DecidableEq

/-- `Slideshow::default()`. -/
def Slideshow.default : Slideshow :=
  ⟨[], [], Option.none, Option.none, Option.none⟩

/-! ## Tokens (`src/parser/tokenizer.rs`) -/

/-- `TokenSpan { line, beg, end }`. -/
structure TokenSpan where
  line : ℕ
  beg : ℕ
  fin : ℕ
  deriving Repr, DecidableEq

/-- `Structure`: the closed set of token symbols. -/
inductive Structure where
  | Generic
  | Fontcolor
  | BackGroundColor
  | Slide
  | Size
  | TextBuffer
  | Position
  | Figure
  | Rotation
  | Import
  | TextLine (s : List Char)
  | Comment (s : List Char)
  | String (s : List Char)
  | Number (q : ℚ)
  deriving Repr, DecidableEq

/-- `Token { symbol, span }`. -/
structure Token where
  symbol : Structure
  span : TokenSpan
  deriving Repr, DecidableEq

/-! ## UTF-8 byte arithmetic

Rust `str` values are indexed by bytes, while `chars().enumerate()` yields
char indices.  We model a string as its list of chars and recover the byte
view through the UTF-8 encoded length of each char. -/

/-- Number of bytes of the UTF-8 encoding of a char. -/
def utf8Len (c : Char) : ℕ :=
  if c.toNat < 0x80 then 1
  else if c.toNat < 0x800 then 2
  else if c.toNat < 0x10000 then 3
  else 4

/-- Byte length of a string (Rust `str::len`). -/
def byteLen (s : List Char) : ℕ := (s.map utf8Len).sum

/-- Split a string at byte offset `i`: `some (pre, rest)` when `i` is a char
boundary (Rust `str::get`-style boundary check), `none` otherwise. -/
def splitAtByte : List Char → ℕ → Option (List Char × List Char)
  | s, 0 => some ([], s)
  | [], _ + 1 => Option.none
  | c :: s, i + 1 =>
    if utf8Len c ≤ i + 1 then
      match splitAtByte s (i + 1 - utf8Len c) with
      | some (a, b) => some (c :: a, b)
      | Option.none => Option.none
    else Option.none

/-- Rust `line.get(a..b)`: `some` sub-slice when `a ≤ b` and both are char
boundaries within the string, `none` otherwise. -/
def strGet (s : List Char) (a b : ℕ) : Option (List Char) :=
  if a ≤ b then
    match splitAtByte s a with
    | some (_, rest) =>
      match splitAtByte rest (b - a) with
      | some (mid, _) => some mid
      | Option.none => Option.none
    | Option.none => Option.none
  else Option.none

/-- Rust `line.get(a..)`: open-ended byte slice. -/
def strGetFrom (s : List Char) (a : ℕ) : Option (List Char) :=
  match splitAtByte s a with
  | some (_, rest) => some rest
  | Option.none => Option.none

/-! ## Tokenizer (`src/parser/tokenizer.rs`) -/

/-- `build_token`: classify a whitespace-delimited word.  `pf` abstracts
Rust `str::parse::<f32>` (`some q` when the word parses as a float). -/
def build_token (pf : List Char → Option ℚ) (val : List Char)
    (linenum beg fin : ℕ) : Token :=
  let struc :=
    if val = ":ge".toList then Structure.Generic
    else if val = ":fc".toList then Structure.Fontcolor
    else if val = ":bc".toList then Structure.BackGroundColor
    else if val = ":sl".toList then Structure.Slide
    else if val = ":sz".toList then Structure.Size
    else if val = ":tb".toList then Structure.TextBuffer
    else if val = ":ps".toList then Structure.Position
    else if val = ":fg".toList then Structure.Figure
    else if val = ":rt".toList then Structure.Rotation
    else if val = ":im".toList then Structure.Import
    else
      match pf val with
      | some num => Structure.Number num
      | Option.none => Structure.String val
  ⟨struc, ⟨linenum, beg, fin⟩⟩

/-- `isize::MAX` on a 64-bit target (the tokenizer refuses longer lines). -/
def isizeMax : ℕ := 2 ^ 63 - 1

/-- The loop body of `parse_single_tokens`.  The source iterates
`line.chars().enumerate()` (so `pos` is a CHAR index) but slices with
`line.get((last_whitespace + 1) as usize..pos)` (BYTE offsets); the
`.expect` on that `get` is a panic (`none`) when an offset is not a char
boundary.  `lw1` carries `(last_whitespace + 1) as usize`. -/
def pstLoop (pf : List Char → Option ℚ) (line : List Char) (linenum : ℕ) :
    List Char → ℕ → ℕ → Bool → List Token → Option (List Token)
  | [], _, lw1, wsMode, acc =>
    -- after the loop: the last char was not a whitespace
    if wsMode then some acc
    else
      match strGetFrom line lw1 with
      | Option.none => Option.none
      | some elem =>
        some (acc ++ [build_token pf elem linenum lw1 (byteLen line)])
  | c :: rest, pos, lw1, wsMode, acc =>
    if c.isWhitespace then
      let wsMode' := if pos = 0 then true else wsMode
      if wsMode' then pstLoop pf line linenum rest (pos + 1) (pos + 1) true acc
      else
        match strGet line lw1 pos with
        | Option.none => Option.none
        | some elem =>
          let acc' :=
            if elem.isEmpty then acc
            else acc ++ [build_token pf elem linenum lw1 pos]
          pstLoop pf line linenum rest (pos + 1) (pos + 1) true acc'
    else pstLoop pf line linenum rest (pos + 1) lw1 false acc

/-- `parse_single_tokens`: split a directive-bearing line into classified
word tokens.  Returns `none` on panic. -/
def parse_single_tokens (pf : List Char → Option ℚ) (tokens : List Token)
    (line : List Char) (linenum : ℕ) : Option (List Token) :=
  if isizeMax ≤ byteLen line then some tokens
  else pstLoop pf line linenum line 0 0 false tokens

/-- The colon-scanning loop of `parse_line`.  The source repeatedly
`find`s a `':'` (byte offset `col`), treats it as escaped when
`modline.get(col - 1..col) == Some("\\")`, and restarts on
`&modline[col + 1..]`.  Because `':'` and `'\\'` are 1-byte chars and a
`0x5c` byte never occurs inside a multi-byte UTF-8 encoding, that byte
test holds exactly when the char preceding the colon is `'\\'`, and the
restart offset `col + 1` is always a char boundary; the loop is therefore
the following char-level scan carrying the previous char (`prev`).
Returns `found_token`. -/
def plScan : Option Char → List Char → Bool
  | _, [] => false
  | prev, c :: rest =>
    if c = ':' then
      if prev = some '\\' then plScan (some c) rest else true
    else plScan (some c) rest

/-- `parse_line`: emit a single verbatim `TextLine`/`Comment` token when
the line has no unescaped colon, else split it via
`parse_single_tokens`. -/
def parse_line (pf : List Char → Option ℚ) (tokens : List Token)
    (line : List Char) (linenum : ℕ) : Option (List Token) :=
  if plScan Option.none line then parse_single_tokens pf tokens line linenum
  else
    some (tokens ++
      [⟨if line.head? = some '#' then Structure.Comment line
        else Structure.TextLine line,
        ⟨linenum, 0, byteLen line⟩⟩])

/-- Split on `'\n'`, producing `n + 1` pieces for `n` newlines. -/
def splitNl : List Char → List (List Char)
  | [] => [[]]
  | c :: rest =>
    if c = '\n' then [] :: splitNl rest
    else
      match splitNl rest with
      | l :: ls => (c :: l) :: ls
      | [] => [[c]]

/-- Strip one trailing `'\r'` (Rust strips it only from pieces that were
terminated by a `'\n'`). -/
def stripCr (l : List Char) : List Char :=
  if l.getLast? = some '\r' then l.dropLast else l

/-- Post-process the split pieces like Rust `str::lines`: every piece but
the final one was `'\n'`-terminated (strip a trailing `'\r'`); the final
piece is dropped when empty (trailing newline) and kept verbatim
otherwise. -/
def linesMap : List (List Char) → List (List Char)
  | [] => []
  | [l] => if l.isEmpty then [] else [l]
  | l :: ls => stripCr l :: linesMap ls

/-- Rust `str::lines`. -/
def rustLines (s : List Char) : List (List Char) := linesMap (splitNl s)

/-- The per-line fold of `tokenizer`. -/
def tokenizerGo (pf : List Char → Option ℚ) :
    List (List Char) → ℕ → List Token → Option (List Token)
  | [], _, acc => some acc
  | l :: ls, linenum, acc =>
    match parse_line pf acc l linenum with
    | Option.none => Option.none
    | some acc' => tokenizerGo pf ls (linenum + 1) acc'

/-- `tokenizer`: tokenize a whole input, line by line, lines numbered
from 0.  `none` models a panic. -/
def tokenizer (pf : List Char → Option ℚ) (inp : List Char) :
    Option (List Token) :=
  tokenizerGo pf (rustLines inp) 0 []

/-! ## Lexer state (`src/parser/lexer.rs`) -/

/-- `CurrentState`: which directive context the interpreter is in. -/
inductive CurrentState where
  | General
  | Slide
  | Figure
  | Text
  | Import
  | None
  deriving Repr, DecidableEq

/-- `LexerInternal { state, slide }`. -/
structure LexerInternal where
  state : CurrentState
  slide : Option Slide
  deriving Repr, DecidableEq

/-- `Lexer { slideshow, internals }` (the `base_folder` field is passed as
an explicit argument to the functions that read it). -/
structure Lexer where
  slideshow : Slideshow
  internals : LexerInternal
  deriving Repr, DecidableEq

/-- A fresh lexer (`Lexer::new` / `Default`): empty document, no open
slide, state `None`. -/
def Lexer.init : Lexer :=
  ⟨Slideshow.default, ⟨CurrentState.None, Option.none⟩⟩

/-- Write the `internals.state` field. -/
def Lexer.setState (lx : Lexer) (s : CurrentState) : Lexer :=
  { lx with internals := { lx.internals with state := s } }

/-- Write the `internals.slide` field. -/
def Lexer.withSlide (lx : Lexer) (s : Option Slide) : Lexer :=
  { lx with internals := { lx.internals with slide := s } }

/-- `slideshow.slides.push(s)`. -/
def Lexer.pushSlide (lx : Lexer) (s : Slide) : Lexer :=
  { lx with slideshow :=
      { lx.slideshow with slides := lx.slideshow.slides ++ [s] } }

/-- `slideshow.slides.append(&mut ss)`. -/
def Lexer.appendSlides (lx : Lexer) (ss : List Slide) : Lexer :=
  { lx with slideshow :=
      { lx.slideshow with slides := lx.slideshow.slides ++ ss } }

/-- `Lexer::take`: flush any still-open slide into the document and hand
the document out. -/
def Lexer.take (lx : Lexer) : Slideshow :=
  match lx.internals.slide with
  | some s => { lx.slideshow with slides := lx.slideshow.slides ++ [s] }
  | Option.none => lx.slideshow

/-! ## Environment for the filesystem effects -/

/-- The filesystem-dependent operations of the handlers, abstracted:
`canonicalize p` models `Path::canonicalize` (`none` = I/O error, i.e. the
path does not resolve to an existing file); `importFile p` models the
recursive `parse_file` call of `manage_import` (outer `none` = the nested
parse panicked, `Except.error` = it returned an error). -/
structure Env where
  canonicalize : List Char → Option (List Char)
  importFile : List Char → Option (Except String Slideshow)

/-- Rust `Path::join(base, el)`: `el` replaces the base when absolute. -/
def pathJoin (base el : List Char) : List Char :=
  if el.head? = some '/' then el else base ++ '/' :: el

/-! ## Directive handlers (`src/parser/utils.rs`)

Each handler returns `none` for a panic, and otherwise the (possibly
mutated, mirroring the `&mut` writes the source performs even on error
paths) lexer together with `Err` or the `skip` count. -/

/-- `el.replace("\\:", ":")` (leftmost, non-overlapping). -/
def replaceEscColon : List Char → List Char
  | '\\' :: ':' :: rest => ':' :: replaceEscColon rest
  | c :: rest => c :: replaceEscColon rest
  | [] => []

/-- `apply_slide`: run `f` on the open slide, or fail when none is open.
`f` returns the mutated slide and a value; `none` propagates a panic. -/
def apply_slide {α : Type} (slide : Option Slide)
    (f : Slide → Option (Except String (Slide × α))) :
    Option (Except String (Option Slide × α)) :=
  match slide with
  | some s =>
    match f s with
    | Option.none => Option.none
    | some (Except.error e) => some (Except.error e)
    | some (Except.ok (s', u)) => some (Except.ok (some s', u))
  | Option.none => some (Except.error "Please create a slide first.")

/-- Fold an `apply_slide` result back into the lexer: on success the
mutated slide is written back and the closure's `skip` count returned. -/
def finishApply (lx : Lexer)
    (r : Option (Except String (Option Slide × ℕ))) :
    Option (Lexer × Except String ℕ) :=
  match r with
  | Option.none => Option.none
  | some (Except.error e) => some (lx, Except.error e)
  | some (Except.ok (sl, skip)) => some (lx.withSlide sl, Except.ok skip)

/-- `manage_import`: set state, require a `String` path, flush the open
slide, recursively parse the referenced file and append its slides. -/
def manage_import (env : Env) (lx : Lexer) (tokens : List Token)
    (base_folder : List Char) : Option (Lexer × Except String ℕ) :=
  let lx1 := lx.setState CurrentState.Import
  match tokens.head? with
  | some t =>
    match t.symbol with
    | Structure.String el =>
      let lx2 :=
        match lx1.internals.slide with
        | some cs => (lx1.pushSlide cs).withSlide Option.none
        | Option.none => lx1
      -- format!("{}/{}", base_folder.display(), el)
      match env.importFile (base_folder ++ '/' :: el) with
      | Option.none => Option.none
      | some (Except.error e) => some (lx2, Except.error e)
      | some (Except.ok imported) =>
        some (lx2.appendSlides imported.slides, Except.ok 1)
    | _ => some (lx1, Except.error "In an import, we must have a path.")
  | Option.none =>
    some (lx1, Except.error "In an import, we must have a path.")

/-- `manage_slide`: flush any open slide into the document, open a fresh
one, state := Slide. -/
def manage_slide (lx : Lexer) : Option (Lexer × Except String ℕ) :=
  let lx' :=
    match lx.internals.slide with
    | Option.none => lx.withSlide (some Slide.default)
    | some s => (lx.pushSlide s).withSlide (some Slide.default)
  some (lx'.setState CurrentState.Slide, Except.ok 0)

/-- `manage_textline`: outside `Text` only the empty line is tolerated;
in `Text` the (un-escaped) line plus `'\n'` is appended to the last
section's text buffer.  `slide.sections.len() - 1` underflows (panics)
when the open slide has no section. -/
def manage_textline (lx : Lexer) (el : List Char) :
    Option (Lexer × Except String ℕ) :=
  match lx.internals.state with
  | CurrentState.Import | CurrentState.Figure | CurrentState.Slide
  | CurrentState.General | CurrentState.None =>
    if el.isEmpty then some (lx, Except.ok 0)
    else
      some (lx,
        Except.error "A textline does make sense only in a text section.")
  | CurrentState.Text =>
    finishApply lx (apply_slide lx.internals.slide (fun slide =>
      if slide.sections.isEmpty then Option.none
      else
        match slide.sections.getLast? with
        | some lastSec =>
          match lastSec.sec_main with
          | some (SectionMain.Text t) =>
            some (Except.ok
              ({ slide with sections := slide.sections.dropLast ++
                  [{ lastSec with sec_main := some (SectionMain.Text
                      { t with text :=
                          t.text ++ replaceEscColon el ++ ['\n'] }) }] }, 0))
          | some (SectionMain.Figure _) =>
            some (Except.error
              "In a Text section but the last section is not a figure... How?")
          | Option.none => some (Except.error "No section is built yet.")
        | Option.none => Option.none))

/-- `manage_textbuffer`: state := Text (before the slide check!), then
append a fresh empty text section to the open slide. -/
def manage_textbuffer (lx : Lexer) : Option (Lexer × Except String ℕ) :=
  let lx1 := lx.setState CurrentState.Text
  finishApply lx1 (apply_slide lx1.internals.slide (fun slide =>
    some (Except.ok
      ({ slide with sections := slide.sections ++
          [{ Section.default with
              sec_main := some (SectionMain.Text SectionText.default) }] },
        0))))

/-- `manage_figure`: state := Figure (before any check), require a
`String` path, canonicalize it — the source `unwrap`s the I/O result, a
panic when the file does not exist — and append a figure section. -/
def manage_figure (env : Env) (lx : Lexer) (tokens : List Token)
    (base_folder : List Char) : Option (Lexer × Except String ℕ) :=
  let lx1 := lx.setState CurrentState.Figure
  match tokens.head? with
  | some t =>
    match t.symbol with
    | Structure.String el =>
      match env.canonicalize (pathJoin base_folder el) with
      | Option.none => Option.none
      | some figure_path =>
        finishApply lx1 (apply_slide lx1.internals.slide (fun slide =>
          some (Except.ok
            ({ slide with sections := slide.sections ++
                [{ Section.default with
                    sec_main := some (SectionMain.Figure
                      { SectionFigure.default with path := figure_path }) }] },
              1))))
    | _ => some (lx1, Except.error "In an figure, we must have a path.")
  | Option.none =>
    some (lx1, Except.error "In an figure, we must have a path.")

/-- `manage_position`: legal in Text/Figure; reads two `Number` tokens
and sets the last section's position (source order: token extraction,
then the unchecked `len() - 1` indexing). -/
def manage_position (lx : Lexer) (tokens : List Token) :
    Option (Lexer × Except String ℕ) :=
  match lx.internals.state with
  | CurrentState.Import | CurrentState.Slide | CurrentState.General
  | CurrentState.None =>
    some (lx,
      Except.error "Position does make sense only for text and figures.")
  | CurrentState.Text | CurrentState.Figure =>
    finishApply lx (apply_slide lx.internals.slide (fun slide =>
      match tokens with
      | t1 :: t2 :: _ =>
        match t1.symbol with
        | Structure.Number v1 =>
          match t2.symbol with
          | Structure.Number v2 =>
            if slide.sections.isEmpty then Option.none
            else
              match slide.sections.getLast? with
              | some lastSec =>
                some (Except.ok
                  ({ slide with sections := slide.sections.dropLast ++
                      [{ lastSec with position := some ⟨v1, v2⟩ }] }, 2))
              | Option.none => Option.none
          | _ => some (Except.error "Expect a float, found another token")
        | _ => some (Except.error "Expect a float, found another token")
      | _ => some (Except.error "Position must have 2 tokens after it")))

/-- `get_size`: two leading `Number`s are taken directly as `(x, y)`
(skip 2); a single leading `Number` `s` (second token absent or not a
`Number`) derives `x = s/10*0.012`, `y = s/10*0.06` (skip 1); anything
else errors. -/
def get_size (tokens : List Token) : Except String (Vec2 × ℕ) :=
  match tokens with
  | t1 :: t2 :: _ =>
    match t1.symbol with
    | Structure.Number v1 =>
      match t2.symbol with
      | Structure.Number v2 => Except.ok (⟨v1, v2⟩, 2)
      | _ =>
        Except.ok (⟨v1 / 10 * (0.012 : ℚ), v1 / 10 * (0.06 : ℚ)⟩, 1)
    | _ => Except.error "Expect a float, found another token"
  | [t] =>
    match t.symbol with
    | Structure.Number v =>
      Except.ok (⟨v / 10 * (0.012 : ℚ), v / 10 * (0.06 : ℚ)⟩, 1)
    | _ => Except.error "Expect a float, found another token"
  | [] => Except.error "Size must have 1/2 tokens after it"

/-- `manage_size`: document default in General, last section's size in
Text/Figure (where `len() - 1` underflows first when no section
exists). -/
def manage_size (lx : Lexer) (tokens : List Token) :
    Option (Lexer × Except String ℕ) :=
  match lx.internals.state with
  | CurrentState.Import | CurrentState.Slide | CurrentState.None =>
    some (lx,
      Except.error
        "Size does make sense only in general, text and figure sections.")
  | CurrentState.General =>
    match get_size tokens with
    | Except.error e => some (lx, Except.error e)
    | Except.ok (v, skip) =>
      some ({ lx with slideshow := { lx.slideshow with font_size := some v } },
        Except.ok skip)
  | CurrentState.Text | CurrentState.Figure =>
    finishApply lx (apply_slide lx.internals.slide (fun slide =>
      if slide.sections.isEmpty then Option.none
      else
        match get_size tokens with
        | Except.error e => some (Except.error e)
        | Except.ok (v, skip) =>
          match slide.sections.getLast? with
          | some lastSec =>
            some (Except.ok
              ({ slide with sections := slide.sections.dropLast ++
                  [{ lastSec with size := some v }] }, skip))
          | Option.none => Option.none))

/-- `extract_f32`: the token must be a `Number`. -/
def extract_f32 (t : Token) : Except String ℚ :=
  match t.symbol with
  | Structure.Number v => Except.ok v
  | _ => Except.error "Expect a float, found another token"

/-- `extract_u8`: the number must be integral (`ceil == floor`) and in
`[0, 255]`; both failure paths yield the same error. -/
def extract_u8 (t : Token) : Except String ℕ :=
  match extract_f32 t with
  | Except.error e => Except.error e
  | Except.ok v =>
    if ⌈v⌉ = ⌊v⌋ ∧ 0 ≤ ⌊v⌋ ∧ ⌊v⌋ ≤ 255 then Except.ok (⌊v⌋).toNat
    else Except.error "Expect a float, found another token"

/-- Is `c` in `0-9`, `a-f` or `A-F` (the source's explicit ranges)? -/
def rustIsHexDigit (c : Char) : Bool :=
  ('0' ≤ c ∧ c ≤ '9') ∨ ('a' ≤ c ∧ c ≤ 'f') ∨ ('A' ≤ c ∧ c ≤ 'F')

/-- Value of a hex digit. -/
def hexVal (c : Char) : ℕ :=
  if '0' ≤ c ∧ c ≤ '9' then c.toNat - 48
  else if 'a' ≤ c ∧ c ≤ 'f' then c.toNat - 87
  else if 'A' ≤ c ∧ c ≤ 'F' then c.toNat - 55
  else 0

/-- Two hex digits as one channel value. -/
def hexPair (a b : Char) : ℕ := 16 * hexVal a + hexVal b

/-- ASCII lowercasing (`str::to_lowercase`; the fixed color names are all
ASCII, so only the ASCII range can matter for the lookup). -/
def asciiLower (c : Char) : Char :=
  if 'A' ≤ c ∧ c ≤ 'Z' then Char.ofNat (c.toNat + 32) else c

/-- The fixed named-color table of `match_string_color` (alpha always
`0xff`), in source order. -/
def colorNames : List (List Char × Color) :=
  [("acqua".toList, ⟨0x00, 0xff, 0xff, 0xff⟩),
   ("black".toList, ⟨0x00, 0x00, 0x00, 0xff⟩),
   ("blue".toList, ⟨0x00, 0x00, 0xff, 0xff⟩),
   ("fuchsia".toList, ⟨0xff, 0x00, 0xff, 0xff⟩),
   ("gray".toList, ⟨0x80, 0x80, 0x80, 0xff⟩),
   ("green".toList, ⟨0x00, 0x80, 0x00, 0xff⟩),
   ("lime".toList, ⟨0x00, 0xff, 0x00, 0xff⟩),
   ("maroon".toList, ⟨0x80, 0x00, 0x00, 0xff⟩),
   ("navy".toList, ⟨0x00, 0x00, 0x80, 0xff⟩),
   ("olive".toList, ⟨0x80, 0x80, 0x00, 0xff⟩),
   ("purple".toList, ⟨0x80, 0x00, 0x80, 0xff⟩),
   ("red".toList, ⟨0xff, 0x00, 0x00, 0xff⟩),
   ("silver".toList, ⟨0xc0, 0xc0, 0xc0, 0xff⟩),
   ("teal".toList, ⟨0x00, 0x80, 0x80, 0xff⟩),
   ("white".toList, ⟨0xff, 0xff, 0xff, 0xff⟩),
   ("yellow".toList, ⟨0xff, 0xff, 0x00, 0xff⟩)]

/-- `match_string_color`: a `'#'`-prefixed string must be all hex digits
and (after that check, which forces ASCII, so chars = bytes) exactly 8 of
them; a string without `'#'` is looked up, lowercased, in the fixed name
table. -/
def match_string_color (l : List Char) : Except String Color :=
  match l with
  | '#' :: rest =>
    if rest.all rustIsHexDigit then
      match rest with
      | [c1, c2, c3, c4, c5, c6, c7, c8] =>
        Except.ok ⟨hexPair c1 c2, hexPair c3 c4, hexPair c5 c6, hexPair c7 c8⟩
      | _ => Except.error "Exa format must be 0xrrggbbaa"
    else Except.error "Only exadecimal characters are allowed."
  | _ =>
    match colorNames.find? (fun p => p.1 = l.map asciiLower) with
    | some p => Except.ok p.2
    | Option.none => Except.error "Unable to parse the string into a known color."

/-- `get_color`: four leading integral `Number`s in `[0, 255]` build the
color directly (skip 4); otherwise a single leading `String` token is
resolved via `match_string_color` (skip 1); otherwise an error. -/
def get_color (tokens : List Token) : Except String (Color × ℕ) :=
  let res4 : Option Color :=
    match tokens with
    | t1 :: t2 :: t3 :: t4 :: _ =>
      match extract_u8 t1, extract_u8 t2, extract_u8 t3, extract_u8 t4 with
      | Except.ok v1, Except.ok v2, Except.ok v3, Except.ok v4 =>
        some ⟨v1, v2, v3, v4⟩
      | _, _, _, _ => Option.none
    | _ => Option.none
  match res4 with
  | some c => Except.ok (c, 4)
  | Option.none =>
    match tokens.head? with
    | some t =>
      match t.symbol with
      | Structure.String el =>
        match match_string_color el with
        | Except.ok c => Except.ok (c, 1)
        | Except.error e =>
          Except.error ("unable to get the color out of a string: " ++ e)
      | _ =>
        Except.error "token is not a string, unable to get the color out"
    | Option.none =>
      Except.error "not enough tokens to take the color out"

/-- `manage_fontcolor`: document default in General; in Text the color is
resolved first, then written into the last section's text body. -/
def manage_fontcolor (lx : Lexer) (tokens : List Token) :
    Option (Lexer × Except String ℕ) :=
  match lx.internals.state with
  | CurrentState.Import | CurrentState.Slide | CurrentState.Figure
  | CurrentState.None =>
    some (lx,
      Except.error
        "FontColor color does make sense only in general and slide sections.")
  | CurrentState.General =>
    match get_color tokens with
    | Except.error e => some (lx, Except.error e)
    | Except.ok (c, skip) =>
      some ({ lx with slideshow := { lx.slideshow with font_col := some c } },
        Except.ok skip)
  | CurrentState.Text =>
    match get_color tokens with
    | Except.error e => some (lx, Except.error e)
    | Except.ok (c, skip) =>
      finishApply lx (apply_slide lx.internals.slide (fun slide =>
        if slide.sections.isEmpty then Option.none
        else
          match slide.sections.getLast? with
          | some lastSec =>
            match lastSec.sec_main with
            | some (SectionMain.Text t) =>
              some (Except.ok
                ({ slide with sections := slide.sections.dropLast ++
                    [{ lastSec with sec_main := some (SectionMain.Text
                        { t with color := some c }) }] }, skip))
            | some (SectionMain.Figure _) =>
              some (Except.error
                "In a text section, but SectionMain is not a text.")
            | Option.none =>
              some (Except.error "The last section is not ready.")
          | Option.none => Option.none))

/-- `manage_bg_color`: document default in General, the open slide's
background color in Slide. -/
def manage_bg_color (lx : Lexer) (tokens : List Token) :
    Option (Lexer × Except String ℕ) :=
  match lx.internals.state with
  | CurrentState.Import | CurrentState.Text | CurrentState.Figure
  | CurrentState.None =>
    some (lx,
      Except.error
        "Background color does make sense only in general and slide sections.")
  | CurrentState.General =>
    match get_color tokens with
    | Except.error e => some (lx, Except.error e)
    | Except.ok (c, skip) =>
      some ({ lx with slideshow := { lx.slideshow with bg_col := some c } },
        Except.ok skip)
  | CurrentState.Slide =>
    match get_color tokens with
    | Except.error e => some (lx, Except.error e)
    | Except.ok (c, skip) =>
      finishApply lx (apply_slide lx.internals.slide (fun slide =>
        some (Except.ok ({ slide with bg_color := some c }, skip))))

/-- `manage_rotation`: only legal in Figure; reads one `Number` token,
then writes the last (figure) section's rotation through the unchecked
`len() - 1` index. -/
def manage_rotation (lx : Lexer) (tokens : List Token) :
    Option (Lexer × Except String ℕ) :=
  match lx.internals.state with
  | CurrentState.Import | CurrentState.Slide | CurrentState.Text
  | CurrentState.General | CurrentState.None =>
    some (lx,
      Except.error "Rotation does make sense only in a figure section.")
  | CurrentState.Figure =>
    finishApply lx (apply_slide lx.internals.slide (fun slide =>
      match tokens.head? with
      | some t =>
        match t.symbol with
        | Structure.Number v =>
          if slide.sections.isEmpty then Option.none
          else
            match slide.sections.getLast? with
            | some lastSec =>
              match lastSec.sec_main with
              | some (SectionMain.Figure figure) =>
                some (Except.ok
                  ({ slide with sections := slide.sections.dropLast ++
                      [{ lastSec with sec_main := some (SectionMain.Figure
                          { figure with rotation := v }) }] }, 1))
              | _ =>
                some (Except.error
                  "In a Figure section but the last section is not a figure... How?")
            | Option.none => Option.none
        | _ => some (Except.error "Expect a float, found another token")
      | Option.none =>
        some (Except.error "Position must have 1 tokens after it")))

/-! ## The interpreter loop (`Lexer::read_tokens`) and the entry point -/

/-- One dispatch step of `read_tokens` on token `t` with the remaining
tokens `rem` as the handler's argument window. -/
def read_tokensStep (env : Env) (base_folder : List Char) (lx : Lexer)
    (t : Token) (rem : List Token) : Option (Lexer × Except String ℕ) :=
  match t.symbol with
  | Structure.Generic => some (lx.setState CurrentState.General, Except.ok 0)
  | Structure.Figure => manage_figure env lx rem base_folder
  | Structure.Import => manage_import env lx rem base_folder
  | Structure.Slide => manage_slide lx
  | Structure.TextLine el => manage_textline lx el
  | Structure.TextBuffer => manage_textbuffer lx
  | Structure.Position => manage_position lx rem
  | Structure.Size => manage_size lx rem
  | Structure.Rotation => manage_rotation lx rem
  | Structure.Fontcolor => manage_fontcolor lx rem
  | Structure.BackGroundColor => manage_bg_color lx rem
  | Structure.Comment _ => some (lx, Except.ok 0)
  | Structure.String _ =>
    some (lx, Except.error "I should not been able to see strings or numbers")
  | Structure.Number _ =>
    some (lx, Except.error "I should not been able to see strings or numbers")

/-- `read_tokens`: consume the token slice left to right, advancing past
each directive token plus its handler's `skip` count; the first handler
error aborts (wrapped with the offending token's context); `&rem[skip..]`
would panic were `skip` ever to exceed the remaining length. -/
def read_tokens (env : Env) (base_folder : List Char) :
    Lexer → List Token → Option (Lexer × Except String Unit)
  | lx, [] => some (lx, Except.ok ())
  | lx, t :: rem =>
    match read_tokensStep env base_folder lx t rem with
    | Option.none => Option.none
    | some (lx', Except.error e) =>
      some (lx', Except.error ("offending token: " ++ e))
    | some (lx', Except.ok skip) =>
      if skip ≤ rem.length then read_tokens env base_folder lx' (rem.drop skip)
      else Option.none
  termination_by _ toks => toks.length
  decreasing_by
    simp only [List.length_drop, List.length_cons]
    omega

/-- `parse_text`: tokenize, feed one fresh lexer, finalize.  `none` is a
panic anywhere in the pipeline. -/
def parse_text (env : Env) (pf : List Char → Option ℚ) (inp : List Char)
    (base_folder : List Char) : Option (Except String Slideshow) :=
  match tokenizer pf inp with
  | Option.none => Option.none
  | some tokens =>
    match read_tokens env base_folder Lexer.init tokens with
    | Option.none => Option.none
    | some (_, Except.error e) => some (Except.error e)
    | some (lx, Except.ok _) => some (Except.ok lx.take)

/-! ## Predicates and fixtures used by the verification theorems -/

/-- Is the symbol a `Number`? -/
def Structure.isNumber : Structure → Bool
  | Structure.Number _ => true
  | _ => false

/-- `noUnescaped prev l`: scanning `l` with previous char `prev`, every
`':'` is immediately preceded by `'\\'` (the complement of the tokenizer's
`found_token` scan). -/
def noUnescaped : Option Char → List Char → Bool
  | _, [] => true
  | prev, c :: rest =>
    if c = ':' ∧ prev ≠ some '\\' then false else noUnescaped (some c) rest

/-- The last section of the slide exists and its body is a text body. -/
def lastMainIsText (sl : Slide) : Bool :=
  match sl.sections.getLast? with
  | some sec =>
    match sec.sec_main with
    | some (SectionMain.Text _) => true
    | _ => false
  | Option.none => false

/-- The last section of the slide exists and its body is a figure body. -/
def lastMainIsFigure (sl : Slide) : Bool :=
  match sl.sections.getLast? with
  | some sec =>
    match sec.sec_main with
    | some (SectionMain.Figure _) => true
    | _ => false
  | Option.none => false

/-- The interpreter invariant: in state `Text` an open slide exists whose
last section has a text body; in state `Figure` an open slide exists whose
last section has a figure body. -/
def Inv (lx : Lexer) : Bool :=
  (if lx.internals.state = CurrentState.Text then
    match lx.internals.slide with
    | some sl => lastMainIsText sl
    | Option.none => false
  else true) &&
  (if lx.internals.state = CurrentState.Figure then
    match lx.internals.slide with
    | some sl => lastMainIsFigure sl
    | Option.none => false
  else true)

/-- An environment in which no filesystem path resolves (`canonicalize`
always fails) and no import succeeds. -/
def noFileEnv : Env := ⟨fun _ => Option.none, fun _ => Option.none⟩

/-- A number-parse oracle that accepts nothing (usable wherever the words
reaching it are not numeric anyway). -/
def pfNone : List Char → Option ℚ := fun _ => Option.none

/-- A slide holding one text section with the given (already appended)
text buffer: the shape produced by `:sl :tb` followed by one text line. -/
def slideOfText (t : List Char) : Slide :=
  ⟨Option.none,
   [⟨Option.none, Option.none,
     some (SectionMain.Text ⟨t, Option.none, Option.none⟩)⟩]⟩

/-- Two distinguishable slides standing in for the contents of an
imported file. -/
def importedSlide1 : Slide := ⟨some ⟨1, 1, 1, 1⟩, []⟩

/-- Second imported slide. -/
def importedSlide2 : Slide := ⟨some ⟨2, 2, 2, 2⟩, []⟩

/-- An environment in which exactly the file `/d/B.txt` exists and parses
to the two-slide document `[importedSlide1, importedSlide2]`. -/
def importBEnv : Env :=
  ⟨fun _ => Option.none,
   fun p =>
     if p = "/d/B.txt".toList then
       some (Except.ok
         ⟨[importedSlide1, importedSlide2], [], Option.none, Option.none,
          Option.none⟩)
     else Option.none⟩

/-- A lexer in state `Figure` whose open slide has exactly one figure
section (path `p`, rotation 0). -/
def figureLexer (p : List Char) : Lexer :=
  ⟨Slideshow.default,
   ⟨CurrentState.Figure,
    some ⟨Option.none,
      [⟨Option.none, Option.none,
        some (SectionMain.Figure ⟨p, 0⟩)⟩]⟩⟩⟩

/-- A lexer in state `Text` whose open slide has exactly one fresh text
section: the state after `:sl :tb` from a fresh lexer. -/
def textLexer : Lexer :=
  ⟨Slideshow.default,
   ⟨CurrentState.Text,
    some ⟨Option.none,
      [⟨Option.none, Option.none,
        some (SectionMain.Text SectionText.default)⟩]⟩⟩⟩

/-! ## Helper lemmas -/

/-- The tokenizer's colon scan finds an unescaped directive marker exactly
when `noUnescaped` fails. -/
theorem plScan_eq_not_noUnescaped :
    ∀ (l : List Char) (prev : Option Char),
      plScan prev l = !(noUnescaped prev l) := by
  intro l
  induction l with
  | nil => intro prev; rfl
  | cons c rest ih =>
    intro prev
    simp only [plScan, noUnescaped]
    by_cases hc : c = ':'
    · by_cases hp : prev = some '\\' <;> simp [hc, hp, ih]
    · simp [hc, ih]

/-- A successful `manage_slide` leaves the interpreter in state `Slide`,
where the invariant is vacuous. -/
theorem manage_slide_inv (lx lx' : Lexer) (skip : ℕ)
    (h : manage_slide lx = some (lx', Except.ok skip)) : Inv lx' = true := by
  rcases lx with ⟨ss, st, sl⟩
  rcases sl with _ | s <;>
    simp [manage_slide, Lexer.setState, Lexer.withSlide, Lexer.pushSlide] at h <;>
    rcases h with ⟨h1, h2⟩ <;> subst h1 <;> rfl

/-- A successful `manage_textbuffer` appends a text section, so the last
section of the open slide has a text body. -/
theorem manage_textbuffer_inv (lx lx' : Lexer) (skip : ℕ)
    (h : manage_textbuffer lx = some (lx', Except.ok skip)) :
    Inv lx' = true := by
  rcases lx with ⟨ss, st, sl⟩
  rcases sl with _ | s <;>
    simp [manage_textbuffer, Lexer.setState, Lexer.withSlide, apply_slide,
      finishApply] at h
  rcases h with ⟨h1, h2⟩
  subst h1
  simp [Inv, Lexer.withSlide, lastMainIsText, List.getLast?_concat]

/-- A successful `manage_figure` appends a figure section, so the last
section of the open slide has a figure body. -/
theorem manage_figure_inv (env : Env) (base : List Char) (lx lx' : Lexer)
    (tokens : List Token) (skip : ℕ)
    (h : manage_figure env lx tokens base = some (lx', Except.ok skip)) :
    Inv lx' = true := by
  rcases lx with ⟨ss, st, sl⟩
  rcases tokens with _ | ⟨⟨sym, sp⟩, rest⟩
  · simp [manage_figure] at h
  cases sym <;> simp [manage_figure, Lexer.setState] at h
  rcases hc : env.canonicalize (pathJoin base _) with _ | p
  · rw [hc] at h; simp at h
  · rw [hc] at h
    rcases sl with _ | s <;>
      simp [apply_slide, finishApply, Lexer.withSlide] at h
    rcases h with ⟨h1, h2⟩
    subst h1
    simp [Inv, lastMainIsFigure, List.getLast?_concat]

/-- A successful `manage_import` leaves state `Import`, where the
invariant is vacuous. -/
theorem manage_import_inv (env : Env) (base : List Char) (lx lx' : Lexer)
    (tokens : List Token) (skip : ℕ)
    (h : manage_import env lx tokens base = some (lx', Except.ok skip)) :
    Inv lx' = true := by
  rcases lx with ⟨ss, st, sl⟩
  rcases tokens with _ | ⟨⟨sym, sp⟩, rest⟩
  · simp [manage_import] at h
  cases sym <;> simp [manage_import, Lexer.setState] at h
  rcases sl with _ | s
  · rcases hIF : env.importFile (base ++ '/' :: _) with _ | r
    · rw [hIF] at h; simp at h
    rw [hIF] at h
    rcases r with e | imported
    · simp at h
    simp [Lexer.appendSlides] at h
    rcases h with ⟨h1, h2⟩
    subst h1
    rfl
  · rcases hIF : env.importFile (base ++ '/' :: _) with _ | r
    · rw [hIF] at h; simp [Lexer.withSlide, Lexer.pushSlide] at h
    rw [hIF] at h
    rcases r with e | imported
    · simp [Lexer.withSlide, Lexer.pushSlide] at h
    simp [Lexer.withSlide, Lexer.pushSlide, Lexer.appendSlides] at h
    rcases h with ⟨h1, h2⟩
    subst h1
    rfl

/-- A successful `manage_textline` preserves the invariant: outside
`Text` the lexer is unchanged, inside `Text` (on success) the last
section keeps its text body. -/
theorem manage_textline_inv (lx lx' : Lexer) (el : List Char) (skip : ℕ)
    (hInv : Inv lx = true)
    (h : manage_textline lx el = some (lx', Except.ok skip)) :
    Inv lx' = true := by
  rcases lx with ⟨ss, st, sl⟩
  cases st
  case Text =>
    rcases sl with _ | s
    · simp [manage_textline, apply_slide, finishApply] at h
    rcases hgl : s.sections.getLast? with _ | sec
    · have hne : s.sections = [] := by
        rcases hs : s.sections with _ | ⟨a, b⟩
        · rfl
        · rw [hs] at hgl; simp at hgl
      simp [manage_textline, apply_slide, finishApply, hne] at h
    · have hne : ¬(s.sections = []) := by
        intro hs; rw [hs] at hgl; simp at hgl
      rcases hsm : sec.sec_main with _ | sm
      · simp [manage_textline, apply_slide, finishApply, hne, hgl, hsm] at h
      rcases sm with f | t
      · simp [manage_textline, apply_slide, finishApply, hne, hgl, hsm] at h
      · simp [manage_textline, apply_slide, finishApply, hne, hgl, hsm,
          Lexer.withSlide] at h
        rcases h with ⟨h1, h2⟩
        subst h1
        simp [Inv, lastMainIsText, List.getLast?_concat]
  all_goals by_cases hel : el.isEmpty = true
  all_goals simp [manage_textline, hel] at h
  all_goals rcases h with ⟨h1, h2⟩
  all_goals subst h1
  all_goals exact hInv

/-- A successful `manage_position` only rewrites the last section's
position, leaving its body kind — and therefore the invariant —
untouched. -/
theorem manage_position_inv (lx lx' : Lexer) (tokens : List Token) (skip : ℕ)
    (hInv : Inv lx = true)
    (h : manage_position lx tokens = some (lx', Except.ok skip)) :
    Inv lx' = true := by
  rcases lx with ⟨ss, st, sl⟩
  cases st <;> simp [manage_position] at h
  case Text =>
    rcases sl with _ | s
    · simp [apply_slide, finishApply] at h
    have hlm : lastMainIsText s = true := by simpa [Inv] using hInv
    rcases hgl : s.sections.getLast? with _ | sec
    · simp [lastMainIsText, hgl] at hlm
    have hne : ¬(s.sections = []) := by intro hs; rw [hs] at hgl; simp at hgl
    rcases tokens with _ | ⟨⟨sym1, spa⟩, _ | ⟨⟨sym2, spb⟩, rest⟩⟩
    · simp [apply_slide, finishApply] at h
    · simp [apply_slide, finishApply] at h
    cases sym1 <;> try simp [apply_slide, finishApply] at h
    cases sym2 <;> try simp [apply_slide, finishApply, hne, hgl,
      Lexer.withSlide] at h
    rcases h with ⟨h1, h2⟩
    subst h1
    rcases hsm : sec.sec_main with _ | sm
    · simp [lastMainIsText, hgl, hsm] at hlm
    rcases sm with f | t
    · simp [lastMainIsText, hgl, hsm] at hlm
    simp [Inv, lastMainIsText, List.getLast?_concat, hsm]
  case Figure =>
    rcases sl with _ | s
    · simp [apply_slide, finishApply] at h
    have hlm : lastMainIsFigure s = true := by simpa [Inv] using hInv
    rcases hgl : s.sections.getLast? with _ | sec
    · simp [lastMainIsFigure, hgl] at hlm
    have hne : ¬(s.sections = []) := by intro hs; rw [hs] at hgl; simp at hgl
    rcases tokens with _ | ⟨⟨sym1, spa⟩, _ | ⟨⟨sym2, spb⟩, rest⟩⟩
    · simp [apply_slide, finishApply] at h
    · simp [apply_slide, finishApply] at h
    cases sym1 <;> try simp [apply_slide, finishApply] at h
    cases sym2 <;> try simp [apply_slide, finishApply, hne, hgl,
      Lexer.withSlide] at h
    rcases h with ⟨h1, h2⟩
    subst h1
    rcases hsm : sec.sec_main with _ | sm
    · simp [lastMainIsFigure, hgl, hsm] at hlm
    rcases sm with f | t
    swap
    · simp [lastMainIsFigure, hgl, hsm] at hlm
    simp [Inv, lastMainIsFigure, List.getLast?_concat, hsm]

/-- A successful `manage_size` only rewrites the document font size or
the last section's size, never a body kind. -/
theorem manage_size_inv (lx lx' : Lexer) (tokens : List Token) (skip : ℕ)
    (hInv : Inv lx = true)
    (h : manage_size lx tokens = some (lx', Except.ok skip)) :
    Inv lx' = true := by
  rcases lx with ⟨ss, st, sl⟩
  cases st <;> simp [manage_size] at h
  case General =>
    rcases hgs : get_size tokens with e | ⟨v, sk⟩ <;> rw [hgs] at h <;> simp at h
    rcases h with ⟨h1, h2⟩
    subst h1
    rfl
  case Text =>
    rcases sl with _ | s
    · simp [apply_slide, finishApply] at h
    have hlm : lastMainIsText s = true := by simpa [Inv] using hInv
    rcases hgl : s.sections.getLast? with _ | sec
    · simp [lastMainIsText, hgl] at hlm
    have hne : ¬(s.sections = []) := by intro hs; rw [hs] at hgl; simp at hgl
    rcases hgs : get_size tokens with e | ⟨v, sk⟩ <;>
      simp [apply_slide, finishApply, hne, hgs, hgl, Lexer.withSlide] at h
    rcases h with ⟨h1, h2⟩
    subst h1
    rcases hsm : sec.sec_main with _ | sm
    · simp [lastMainIsText, hgl, hsm] at hlm
    rcases sm with f | t
    · simp [lastMainIsText, hgl, hsm] at hlm
    simp [Inv, lastMainIsText, List.getLast?_concat, hsm]
  case Figure =>
    rcases sl with _ | s
    · simp [apply_slide, finishApply] at h
    have hlm : lastMainIsFigure s = true := by simpa [Inv] using hInv
    rcases hgl : s.sections.getLast? with _ | sec
    · simp [lastMainIsFigure, hgl] at hlm
    have hne : ¬(s.sections = []) := by intro hs; rw [hs] at hgl; simp at hgl
    rcases hgs : get_size tokens with e | ⟨v, sk⟩ <;>
      simp [apply_slide, finishApply, hne, hgs, hgl, Lexer.withSlide] at h
    rcases h with ⟨h1, h2⟩
    subst h1
    rcases hsm : sec.sec_main with _ | sm
    · simp [lastMainIsFigure, hgl, hsm] at hlm
    rcases sm with f | t
    swap
    · simp [lastMainIsFigure, hgl, hsm] at hlm
    simp [Inv, lastMainIsFigure, List.getLast?_concat, hsm]

/-- A successful `manage_fontcolor` in `Text` rewrites the last section's
text body (still a text body); in `General` it only touches the
document. -/
theorem manage_fontcolor_inv (lx lx' : Lexer) (tokens : List Token) (skip : ℕ)
    (h : manage_fontcolor lx tokens = some (lx', Except.ok skip)) :
    Inv lx' = true := by
  rcases lx with ⟨ss, st, sl⟩
  cases st <;> simp [manage_fontcolor] at h
  case General =>
    rcases hgc : get_color tokens with e | ⟨c, sk⟩ <;> rw [hgc] at h <;> simp at h
    rcases h with ⟨h1, h2⟩
    subst h1
    rfl
  case Text =>
    rcases hgc : get_color tokens with e | ⟨c, sk⟩ <;> rw [hgc] at h <;>
      try simp at h
    rcases sl with _ | s
    · simp [apply_slide, finishApply] at h
    rcases hgl : s.sections.getLast? with _ | sec
    · have hne : s.sections = [] := by
        rcases hs : s.sections with _ | ⟨a, b⟩
        · rfl
        · rw [hs] at hgl; simp at hgl
      simp [apply_slide, finishApply, hne] at h
    have hne : ¬(s.sections = []) := by intro hs; rw [hs] at hgl; simp at hgl
    rcases hsm : sec.sec_main with _ | sm
    · simp [apply_slide, finishApply, hne, hgl, hsm] at h
    rcases sm with f | t
    · simp [apply_slide, finishApply, hne, hgl, hsm] at h
    simp [apply_slide, finishApply, hne, hgl, hsm, Lexer.withSlide] at h
    rcases h with ⟨h1, h2⟩
    subst h1
    simp [Inv, lastMainIsText, List.getLast?_concat]

/-- A successful `manage_bg_color` runs in `General` or `Slide`, where
the invariant is vacuous. -/
theorem manage_bg_color_inv (lx lx' : Lexer) (tokens : List Token) (skip : ℕ)
    (h : manage_bg_color lx tokens = some (lx', Except.ok skip)) :
    Inv lx' = true := by
  rcases lx with ⟨ss, st, sl⟩
  cases st <;> simp [manage_bg_color] at h
  case General =>
    rcases hgc : get_color tokens with e | ⟨c, sk⟩ <;> rw [hgc] at h <;> simp at h
    rcases h with ⟨h1, h2⟩
    subst h1
    rfl
  case Slide =>
    rcases hgc : get_color tokens with e | ⟨c, sk⟩ <;> rw [hgc] at h <;>
      try simp at h
    rcases sl with _ | s
    · simp [apply_slide, finishApply] at h
    simp [apply_slide, finishApply, Lexer.withSlide] at h
    rcases h with ⟨h1, h2⟩
    subst h1
    rfl

/-- A successful `manage_rotation` rewrites the last section's figure
body (still a figure body). -/
theorem manage_rotation_inv (lx lx' : Lexer) (tokens : List Token) (skip : ℕ)
    (h : manage_rotation lx tokens = some (lx', Except.ok skip)) :
    Inv lx' = true := by
  rcases lx with ⟨ss, st, sl⟩
  cases st <;> simp [manage_rotation] at h
  rcases sl with _ | s
  · simp [apply_slide, finishApply] at h
  rcases tokens with _ | ⟨⟨sym1, spa⟩, rest⟩
  · simp [apply_slide, finishApply] at h
  cases sym1 <;> try simp [apply_slide, finishApply] at h
  rcases hgl : s.sections.getLast? with _ | sec
  · have hne : s.sections = [] := by
      rcases hs : s.sections with _ | ⟨a, b⟩
      · rfl
      · rw [hs] at hgl; simp at hgl
    simp [apply_slide, finishApply, hne] at h
  have hne : ¬(s.sections = []) := by intro hs; rw [hs] at hgl; simp at hgl
  rcases hsm : sec.sec_main with _ | sm
  · simp [apply_slide, finishApply, hne, hgl, hsm] at h
  rcases sm with f | t
  swap
  · simp [apply_slide, finishApply, hne, hgl, hsm] at h
  simp [apply_slide, finishApply, hne, hgl, hsm, Lexer.withSlide] at h
  rcases h with ⟨h1, h2⟩
  subst h1
  simp [Inv, lastMainIsFigure, List.getLast?_concat]

/-- One successful dispatch step of the interpreter preserves the
invariant. -/
theorem read_tokensStep_inv (env : Env) (base : List Char) (lx lx' : Lexer)
    (t : Token) (rem : List Token) (skip : ℕ)
    (hInv : Inv lx = true)
    (h : read_tokensStep env base lx t rem = some (lx', Except.ok skip)) :
    Inv lx' = true := by
  rcases t with ⟨sym, sp⟩
  cases sym
  case Generic =>
    simp [read_tokensStep, Lexer.setState] at h
    rcases h with ⟨h1, h2⟩
    subst h1
    rcases lx with ⟨ss, st, sl⟩
    rfl
  case Figure =>
    simp only [read_tokensStep] at h
    exact manage_figure_inv env base lx lx' rem skip h
  case Import =>
    simp only [read_tokensStep] at h
    exact manage_import_inv env base lx lx' rem skip h
  case Slide =>
    simp only [read_tokensStep] at h
    exact manage_slide_inv lx lx' skip h
  case TextLine =>
    simp only [read_tokensStep] at h
    exact manage_textline_inv lx lx' _ skip hInv h
  case TextBuffer =>
    simp only [read_tokensStep] at h
    exact manage_textbuffer_inv lx lx' skip h
  case Position =>
    simp only [read_tokensStep] at h
    exact manage_position_inv lx lx' rem skip hInv h
  case Size =>
    simp only [read_tokensStep] at h
    exact manage_size_inv lx lx' rem skip hInv h
  case Rotation =>
    simp only [read_tokensStep] at h
    exact manage_rotation_inv lx lx' rem skip h
  case Fontcolor =>
    simp only [read_tokensStep] at h
    exact manage_fontcolor_inv lx lx' rem skip h
  case BackGroundColor =>
    simp only [read_tokensStep] at h
    exact manage_bg_color_inv lx lx' rem skip h
  case Comment =>
    simp [read_tokensStep] at h
    rcases h with ⟨h1, h2⟩
    subst h1
    exact hInv
  case String => simp [read_tokensStep] at h
  case Number => simp [read_tokensStep] at h

/-- Error-free runs of the interpreter loop preserve the invariant, by
strong induction on the token count. -/
theorem read_tokens_inv (env : Env) (base : List Char) :
    ∀ (n : ℕ) (tokens : List Token), tokens.length ≤ n →
      ∀ (lx lx' : Lexer), Inv lx = true →
        read_tokens env base lx tokens = some (lx', Except.ok ()) →
        Inv lx' = true := by
  intro n
  induction n with
  | zero =>
    intro tokens hlen lx lx' hInv hrun
    have ht : tokens = [] := List.eq_nil_of_length_eq_zero (Nat.le_zero.mp hlen)
    subst ht
    simp [read_tokens] at hrun
    subst hrun
    exact hInv
  | succ n ih =>
    intro tokens hlen lx lx' hInv hrun
    rcases tokens with _ | ⟨t, rem⟩
    · simp [read_tokens] at hrun
      subst hrun
      exact hInv
    simp only [read_tokens] at hrun
    rcases hstep : read_tokensStep env base lx t rem with _ | ⟨lx'', res⟩
    · rw [hstep] at hrun; simp at hrun
    rw [hstep] at hrun
    rcases res with e | skip
    · simp at hrun
    simp only at hrun
    by_cases hskip : skip ≤ rem.length
    · rw [if_pos hskip] at hrun
      have hlen' : (List.drop skip rem).length ≤ n := by
        simp only [List.length_cons] at hlen
        simp [List.length_drop]
        omega
      exact ih (rem.drop skip) hlen' lx'' lx'
        (read_tokensStep_inv env base lx lx'' t rem skip hInv hstep) hrun
    · rw [if_neg hskip] at hrun; simp at hrun

/-- Under the invariant, `manage_textline` never panics: the unchecked
`len() - 1` and the text-body match are always satisfied in `Text`. -/
theorem manage_textline_no_panic (lx : Lexer) (el : List Char)
    (hInv : Inv lx = true) : manage_textline lx el ≠ Option.none := by
  rcases lx with ⟨ss, st, sl⟩
  cases st <;> simp only [manage_textline]
  case Text =>
    rcases sl with _ | s
    · simp [apply_slide, finishApply]
    have hlm : lastMainIsText s = true := by simpa [Inv] using hInv
    rcases hgl : s.sections.getLast? with _ | sec
    · simp [lastMainIsText, hgl] at hlm
    have hne : ¬(s.sections = []) := by intro hs; rw [hs] at hgl; simp at hgl
    rcases hsm : sec.sec_main with _ | sm
    · simp [lastMainIsText, hgl, hsm] at hlm
    rcases sm with f | t
    · simp [lastMainIsText, hgl, hsm] at hlm
    simp [apply_slide, finishApply, hne, hgl, hsm]
  all_goals split <;> simp

/-- Under the invariant, `manage_position` never panics. -/
theorem manage_position_no_panic (lx : Lexer) (tokens : List Token)
    (hInv : Inv lx = true) : manage_position lx tokens ≠ Option.none := by
  rcases lx with ⟨ss, st, sl⟩
  cases st <;> simp only [manage_position] <;> try simp
  case Text =>
    rcases sl with _ | s
    · simp [apply_slide, finishApply]
    have hlm : lastMainIsText s = true := by simpa [Inv] using hInv
    rcases hgl : s.sections.getLast? with _ | sec
    · simp [lastMainIsText, hgl] at hlm
    have hne : ¬(s.sections = []) := by intro hs; rw [hs] at hgl; simp at hgl
    rcases tokens with _ | ⟨⟨sym1, spa⟩, _ | ⟨⟨sym2, spb⟩, rest⟩⟩
    · simp [apply_slide, finishApply]
    · simp [apply_slide, finishApply]
    cases sym1 <;> cases sym2 <;>
      simp [apply_slide, finishApply, hne, hgl]
  case Figure =>
    rcases sl with _ | s
    · simp [apply_slide, finishApply]
    have hlm : lastMainIsFigure s = true := by simpa [Inv] using hInv
    rcases hgl : s.sections.getLast? with _ | sec
    · simp [lastMainIsFigure, hgl] at hlm
    have hne : ¬(s.sections = []) := by intro hs; rw [hs] at hgl; simp at hgl
    rcases tokens with _ | ⟨⟨sym1, spa⟩, _ | ⟨⟨sym2, spb⟩, rest⟩⟩
    · simp [apply_slide, finishApply]
    · simp [apply_slide, finishApply]
    cases sym1 <;> cases sym2 <;>
      simp [apply_slide, finishApply, hne, hgl]

/-- Under the invariant, `manage_size` never panics. -/
theorem manage_size_no_panic (lx : Lexer) (tokens : List Token)
    (hInv : Inv lx = true) : manage_size lx tokens ≠ Option.none := by
  rcases lx with ⟨ss, st, sl⟩
  cases st <;> simp only [manage_size] <;> try simp
  case General =>
    rcases hgs : get_size tokens with e | ⟨v, sk⟩ <;> simp
  case Text =>
    rcases sl with _ | s
    · simp [apply_slide, finishApply]
    have hlm : lastMainIsText s = true := by simpa [Inv] using hInv
    rcases hgl : s.sections.getLast? with _ | sec
    · simp [lastMainIsText, hgl] at hlm
    have hne : ¬(s.sections = []) := by intro hs; rw [hs] at hgl; simp at hgl
    rcases hgs : get_size tokens with e | ⟨v, sk⟩ <;>
      simp [apply_slide, finishApply, hne, hgs, hgl]
  case Figure =>
    rcases sl with _ | s
    · simp [apply_slide, finishApply]
    have hlm : lastMainIsFigure s = true := by simpa [Inv] using hInv
    rcases hgl : s.sections.getLast? with _ | sec
    · simp [lastMainIsFigure, hgl] at hlm
    have hne : ¬(s.sections = []) := by intro hs; rw [hs] at hgl; simp at hgl
    rcases hgs : get_size tokens with e | ⟨v, sk⟩ <;>
      simp [apply_slide, finishApply, hne, hgs, hgl]

/-- Under the invariant, `manage_fontcolor` never panics. -/
theorem manage_fontcolor_no_panic (lx : Lexer) (tokens : List Token)
    (hInv : Inv lx = true) : manage_fontcolor lx tokens ≠ Option.none := by
  rcases lx with ⟨ss, st, sl⟩
  cases st <;> simp only [manage_fontcolor] <;> try simp
  case General =>
    rcases hgc : get_color tokens with e | ⟨c, sk⟩ <;> simp
  case Text =>
    rcases hgc : get_color tokens with e | ⟨c, sk⟩ <;> simp [hgc]
    rcases sl with _ | s
    · simp [apply_slide, finishApply]
    have hlm : lastMainIsText s = true := by simpa [Inv] using hInv
    rcases hgl : s.sections.getLast? with _ | sec
    · simp [lastMainIsText, hgl] at hlm
    have hne : ¬(s.sections = []) := by intro hs; rw [hs] at hgl; simp at hgl
    rcases hsm : sec.sec_main with _ | sm
    · simp [lastMainIsText, hgl, hsm] at hlm
    rcases sm with f | t
    · simp [lastMainIsText, hgl, hsm] at hlm
    simp [apply_slide, finishApply, hne, hgl, hsm]

/-- Under the invariant, `manage_rotation` never panics. -/
theorem manage_rotation_no_panic (lx : Lexer) (tokens : List Token)
    (hInv : Inv lx = true) : manage_rotation lx tokens ≠ Option.none := by
  rcases lx with ⟨ss, st, sl⟩
  cases st <;> simp only [manage_rotation] <;> try simp
  case Figure =>
    rcases sl with _ | s
    · simp [apply_slide, finishApply]
    have hlm : lastMainIsFigure s = true := by simpa [Inv] using hInv
    rcases hgl : s.sections.getLast? with _ | sec
    · simp [lastMainIsFigure, hgl] at hlm
    have hne : ¬(s.sections = []) := by intro hs; rw [hs] at hgl; simp at hgl
    rcases tokens with _ | ⟨⟨sym1, spa⟩, rest⟩
    · simp [apply_slide, finishApply]
    rcases hsm : sec.sec_main with _ | sm
    · simp [lastMainIsFigure, hgl, hsm] at hlm
    rcases sm with f | t
    swap
    · simp [lastMainIsFigure, hgl, hsm] at hlm
    cases sym1 <;> simp [apply_slide, finishApply, hne, hgl, hsm]

/-! ## The claims -/

/-- C1: the claim states that a Figure directive whose path does not
resolve to an existing file makes parsing return a descriptive error and
never panic.  The code instead calls `.canonicalize().unwrap()`, which
panics on the I/O error: with no file present, parsing `:sl :fg
missing.png` panics (`Option.none`) rather than producing an error
value. -/
theorem C1_missing_figure_panics (pf : List Char → Option ℚ)
    (h : pf "missing.png".toList = Option.none) :
    parse_text noFileEnv pf ":sl :fg missing.png".toList "/decks".toList =
      Option.none := by
  have hb : build_token pf "missing.png".toList 0 8 19 =
      ⟨Structure.String "missing.png".toList, ⟨0, 8, 19⟩⟩ := by
    unfold build_token; rw [h]; rfl
  have ht : tokenizer pf ":sl :fg missing.png".toList =
      some [⟨Structure.Slide, ⟨0, 0, 3⟩⟩, ⟨Structure.Figure, ⟨0, 4, 7⟩⟩,
            build_token pf "missing.png".toList 0 8 19] := rfl
  rw [hb] at ht
  simp only [parse_text, ht]
  simp [read_tokens, read_tokensStep, manage_slide, manage_figure, noFileEnv,
    pathJoin, apply_slide, finishApply, Lexer.init, Lexer.setState,
    Lexer.withSlide]

/-- Witness for C1 at the concrete number-parse oracle `pfNone`. -/
theorem C1_missing_figure_panics_witness :
    pfNone "missing.png".toList = Option.none ∧
    parse_text noFileEnv pfNone ":sl :fg missing.png".toList
      "/decks".toList = Option.none :=
  ⟨rfl, C1_missing_figure_panics pfNone rfl⟩

/-- C2: the claim states the tokenizer is total on all UTF-8 input.  It
is not: on the line `é :ge` (a multi-byte char before an unescaped `:`)
`parse_single_tokens` uses the char index 1 as a byte offset, `str::get`
hits a non-boundary and the `.expect` panics, for every number-parse
oracle. -/
theorem C2_tokenizer_multibyte_panics (pf : List Char → Option ℚ) :
    tokenizer pf "é :ge".toList = Option.none := by rfl

/-- Witness for C2 at the concrete oracle `pfNone`. -/
theorem C2_tokenizer_multibyte_panics_witness :
    tokenizer pfNone "é :ge".toList = Option.none :=
  C2_tokenizer_multibyte_panics pfNone

/-- C3 counterexample: the claim states that a whitespace-only text line
is a silent no-op in every non-`Text` state; in the fresh (`None`) state
the line `"   "` instead produces a hard error, because the code only
tolerates the genuinely empty line (`el.is_empty()`). -/
theorem C3_whitespace_textline_errors_cx :
    manage_textline Lexer.init "   ".toList =
      some (Lexer.init,
        Except.error "A textline does make sense only in a text section.") := by
  decide

/-- C3 (amended): in every state other than `Text`, a text-line token is
a silent no-op exactly when it is empty, and a hard error (with the lexer
untouched) for any non-empty text — including whitespace-only text. -/
theorem C3_textline_outside_text (lx : Lexer) (el : List Char)
    (h : lx.internals.state ≠ CurrentState.Text) :
    manage_textline lx el =
      some (lx, if el.isEmpty then Except.ok 0
        else
          Except.error "A textline does make sense only in a text section.") := by
  rcases lx with ⟨ss, st, sl⟩
  cases st <;> simp_all [manage_textline] <;> split <;> rfl

/-- Witness for C3 in the `General` state on an empty and a non-empty
line. -/
theorem C3_textline_outside_text_witness :
    (Lexer.init.setState CurrentState.General).internals.state ≠
      CurrentState.Text ∧
    manage_textline (Lexer.init.setState CurrentState.General) [] =
      some (Lexer.init.setState CurrentState.General, Except.ok 0) ∧
    manage_textline (Lexer.init.setState CurrentState.General) "  x".toList =
      some (Lexer.init.setState CurrentState.General,
        Except.error "A textline does make sense only in a text section.") := by
  refine ⟨by decide, ?_, ?_⟩
  · simpa using C3_textline_outside_text
      (Lexer.init.setState CurrentState.General) [] (by decide)
  · simpa using C3_textline_outside_text
      (Lexer.init.setState CurrentState.General) "  x".toList (by decide)

/-- C4 counterexample: the claim states a bare 8-hex-digit string
(`rrggbbaa`, no `#`) is accepted as a color; `match_string_color` only
enters hex mode after stripping a `#` prefix, so the bare form falls to
the named-color table and errors. -/
theorem C4_bare_hex_rejected_cx :
    get_color [⟨Structure.String "ff000080".toList, ⟨0, 0, 0⟩⟩] =
      Except.error
        "unable to get the color out of a string: Unable to parse the string into a known color." := by
  decide

/-- C4 (amended): a single String token consisting of `#` followed by
exactly 8 hex digits resolves to the color with channels `0xrr 0xgg 0xbb
0xaa` and consumes one token. -/
theorem C4_hash_hex_accepted (d1 d2 d3 d4 d5 d6 d7 d8 : Char)
    (sp : TokenSpan) (rest : List Token)
    (h : ([d1, d2, d3, d4, d5, d6, d7, d8]).all rustIsHexDigit = true) :
    get_color
      (⟨Structure.String ('#' :: [d1, d2, d3, d4, d5, d6, d7, d8]), sp⟩ ::
        rest) =
      Except.ok
        (⟨hexPair d1 d2, hexPair d3 d4, hexPair d5 d6, hexPair d7 d8⟩, 1) := by
  rcases rest with _ | ⟨t2, _ | ⟨t3, _ | ⟨t4, rest⟩⟩⟩ <;>
    simp [get_color, extract_u8, extract_f32, match_string_color, h]

/-- Witness for C4 on `#ff000080`. -/
theorem C4_hash_hex_accepted_witness :
    (['f', 'f', '0', '0', '0', '0', '8', '0']).all rustIsHexDigit = true ∧
    get_color [⟨Structure.String "#ff000080".toList, ⟨0, 0, 0⟩⟩] =
      Except.ok (⟨255, 0, 0, 128⟩, 1) := by
  refine ⟨by decide, ?_⟩
  have h := C4_hash_hex_accepted 'f' 'f' '0' '0' '0' '0' '8' '0' ⟨0, 0, 0⟩ []
    (by decide)
  simpa using h

/-- C5: a line in which every `:` is escaped (immediately preceded by
`\`) or absent is emitted by the tokenizer as exactly one token, payload
verbatim (all whitespace included), tagged `Comment` iff the line starts
with `#` and `TextLine` otherwise; the empty line yields
`TextLine("")`. -/
theorem C5_no_colon_line_verbatim (pf : List Char → Option ℚ)
    (acc : List Token) (line : List Char) (n : ℕ)
    (h : noUnescaped Option.none line = true) :
    parse_line pf acc line n =
      some (acc ++
        [⟨if line.head? = some '#' then Structure.Comment line
          else Structure.TextLine line, ⟨n, 0, byteLen line⟩⟩]) := by
  unfold parse_line
  rw [plScan_eq_not_noUnescaped, h]
  rfl

/-- Witness for C5 on a line with an escaped colon and significant
whitespace. -/
theorem C5_no_colon_line_verbatim_witness :
    noUnescaped Option.none " a\\:ge b ".toList = true ∧
    parse_line pfNone [] " a\\:ge b ".toList 3 =
      some [⟨Structure.TextLine " a\\:ge b ".toList, ⟨3, 0, 9⟩⟩] := by
  refine ⟨by decide, ?_⟩
  have h := C5_no_colon_line_verbatim pfNone [] " a\\:ge b ".toList 3
    (by decide)
  simpa [byteLen, utf8Len] using h

/-- C6: parsing `:sl :tb\nfirst\n:sl :tb\nsecond` yields exactly two
slides in order, each with one text section, with buffers `"first\n"`
and `"second\n"`: the second Slide directive flushes the first slide and
`take` pushes the still-open second one. -/
theorem C6_slide_flush_ordering (pf : List Char → Option ℚ) (env : Env)
    (base : List Char) :
    parse_text env pf ":sl :tb\nfirst\n:sl :tb\nsecond".toList base =
      some (Except.ok
        ⟨[slideOfText "first\n".toList, slideOfText "second\n".toList],
         [], Option.none, Option.none, Option.none⟩) := by
  have ht : tokenizer pf ":sl :tb\nfirst\n:sl :tb\nsecond".toList =
      some [⟨Structure.Slide, ⟨0, 0, 3⟩⟩, ⟨Structure.TextBuffer, ⟨0, 4, 7⟩⟩,
            ⟨Structure.TextLine "first".toList, ⟨1, 0, 5⟩⟩,
            ⟨Structure.Slide, ⟨2, 0, 3⟩⟩, ⟨Structure.TextBuffer, ⟨2, 4, 7⟩⟩,
            ⟨Structure.TextLine "second".toList, ⟨3, 0, 6⟩⟩] := rfl
  simp only [parse_text, ht]
  simp [read_tokens, read_tokensStep, manage_slide, manage_textbuffer,
    manage_textline, apply_slide, finishApply, Lexer.init, Lexer.setState,
    Lexer.withSlide, Lexer.pushSlide, Slideshow.default, Slide.default,
    Section.default, SectionText.default, Lexer.take, replaceEscColon,
    slideOfText]

/-- Witness for C6 at concrete oracle, environment and base folder. -/
theorem C6_slide_flush_ordering_witness :
    parse_text noFileEnv pfNone ":sl :tb\nfirst\n:sl :tb\nsecond".toList
      "/d".toList =
      some (Except.ok
        ⟨[slideOfText "first\n".toList, slideOfText "second\n".toList],
         [], Option.none, Option.none, Option.none⟩) :=
  C6_slide_flush_ordering pfNone noFileEnv "/d".toList

/-- C7: a token stream that builds one slide, imports a file `el` (under
base folder `base`) parsing to two slides `s1, s2`, then builds a second
slide, produces the slide order: first slide, `s1`, `s2`, second slide —
the open slide is flushed before the imported slides are appended. -/
theorem C7_import_splice_order (env : Env) (base el a b : List Char)
    (ssB : Slideshow) (s1 s2 : Slide)
    (sp1 sp2 sp3 sp4 sp5 sp6 sp7 sp8 : TokenSpan)
    (hB : env.importFile (base ++ '/' :: el) = some (Except.ok ssB))
    (hs : ssB.slides = [s1, s2]) :
    ∃ lx : Lexer,
      read_tokens env base Lexer.init
        [⟨Structure.Slide, sp1⟩, ⟨Structure.TextBuffer, sp2⟩,
         ⟨Structure.TextLine a, sp3⟩, ⟨Structure.Import, sp4⟩,
         ⟨Structure.String el, sp5⟩, ⟨Structure.Slide, sp6⟩,
         ⟨Structure.TextBuffer, sp7⟩, ⟨Structure.TextLine b, sp8⟩] =
        some (lx, Except.ok ()) ∧
      lx.take.slides =
        [slideOfText (replaceEscColon a ++ ['\n']), s1, s2,
         slideOfText (replaceEscColon b ++ ['\n'])] := by
  refine ⟨⟨⟨[slideOfText (replaceEscColon a ++ ['\n']), s1, s2], [],
      Option.none, Option.none, Option.none⟩,
      ⟨CurrentState.Text, some (slideOfText (replaceEscColon b ++ ['\n']))⟩⟩,
    ?_, by simp [Lexer.take, slideOfText]⟩
  simp [read_tokens, read_tokensStep, manage_slide, manage_textbuffer,
    manage_textline, manage_import, apply_slide, finishApply, Lexer.init,
    Lexer.setState, Lexer.withSlide, Lexer.pushSlide, Lexer.appendSlides,
    Slideshow.default, Slide.default, Section.default, SectionText.default,
    hB, hs, slideOfText]

/-- Witness for C7 in the concrete environment `importBEnv`. -/
theorem C7_import_splice_order_witness :
    importBEnv.importFile ("/d".toList ++ '/' :: "B.txt".toList) =
      some (Except.ok
        ⟨[importedSlide1, importedSlide2], [], Option.none, Option.none,
         Option.none⟩) ∧
    ∃ lx : Lexer,
      read_tokens importBEnv "/d".toList Lexer.init
        [⟨Structure.Slide, ⟨0, 0, 3⟩⟩, ⟨Structure.TextBuffer, ⟨1, 0, 3⟩⟩,
         ⟨Structure.TextLine "a".toList, ⟨2, 0, 1⟩⟩,
         ⟨Structure.Import, ⟨3, 0, 3⟩⟩,
         ⟨Structure.String "B.txt".toList, ⟨3, 4, 9⟩⟩,
         ⟨Structure.Slide, ⟨4, 0, 3⟩⟩, ⟨Structure.TextBuffer, ⟨5, 0, 3⟩⟩,
         ⟨Structure.TextLine "b".toList, ⟨6, 0, 1⟩⟩] =
        some (lx, Except.ok ()) ∧
      lx.take.slides =
        [slideOfText (replaceEscColon "a".toList ++ ['\n']),
         importedSlide1, importedSlide2,
         slideOfText (replaceEscColon "b".toList ++ ['\n'])] := by
  refine ⟨by decide, ?_⟩
  exact C7_import_splice_order importBEnv "/d".toList "B.txt".toList
    "a".toList "b".toList
    ⟨[importedSlide1, importedSlide2], [], Option.none, Option.none,
     Option.none⟩
    importedSlide1 importedSlide2 _ _ _ _ _ _ _ _ (by decide) rfl

/-- C8: the Size argument rule — two leading Numbers are taken directly
as `(x, y)` with skip 2; a single leading Number `s` (alone, or followed
by a non-Number) derives `(s/10*0.012, s/10*0.06)` with skip 1; any
other shape errors; and `:sz 40` in the General state sets the document
font size to `(0.048, 0.24)`. -/
theorem C8_size_directive :
    (∀ (x y : ℚ) (sp1 sp2 : TokenSpan) (rest : List Token),
      get_size (⟨Structure.Number x, sp1⟩ :: ⟨Structure.Number y, sp2⟩ ::
        rest) = Except.ok (⟨x, y⟩, 2)) ∧
    (∀ (s : ℚ) (sp1 : TokenSpan) (t : Token) (rest : List Token),
      t.symbol.isNumber = false →
      get_size (⟨Structure.Number s, sp1⟩ :: t :: rest) =
        Except.ok (⟨s / 10 * (0.012 : ℚ), s / 10 * (0.06 : ℚ)⟩, 1)) ∧
    (∀ (s : ℚ) (sp1 : TokenSpan),
      get_size [⟨Structure.Number s, sp1⟩] =
        Except.ok (⟨s / 10 * (0.012 : ℚ), s / 10 * (0.06 : ℚ)⟩, 1)) ∧
    (∀ (t : Token) (rest : List Token), t.symbol.isNumber = false →
      get_size (t :: rest) = Except.error "Expect a float, found another token") ∧
    (get_size [] = Except.error "Size must have 1/2 tokens after it") ∧
    (∀ (lx : Lexer) (sp : TokenSpan),
      lx.internals.state = CurrentState.General →
      manage_size lx [⟨Structure.Number 40, sp⟩] =
        some ({ lx with slideshow :=
            { lx.slideshow with font_size := some ⟨(0.048 : ℚ), (0.24 : ℚ)⟩ } },
          Except.ok 1)) := by
  refine ⟨?_, ?_, ?_, ?_, by rfl, ?_⟩
  · intro x y sp1 sp2 rest; rfl
  · intro s sp1 t rest h
    rcases t with ⟨sym, sp⟩
    cases sym <;> simp_all [get_size, Structure.isNumber]
  · intro s sp1; rfl
  · intro t rest h
    rcases t with ⟨sym, sp⟩
    rcases rest with _ | ⟨t2, rest⟩ <;> cases sym <;>
      simp_all [get_size, Structure.isNumber]
  · intro lx sp h
    rcases lx with ⟨ss, st, sl⟩
    simp only at h
    subst h
    simp [manage_size, get_size]
    norm_num

/-- Witness for C8: the one-number legacy form past a non-Number token,
and `:sz 40` in the General state. -/
theorem C8_size_directive_witness :
    ((⟨Structure.String "x".toList, ⟨0, 0, 0⟩⟩ : Token).symbol.isNumber
      = false) ∧
    get_size [⟨Structure.Number 40, ⟨0, 0, 0⟩⟩,
      ⟨Structure.String "x".toList, ⟨0, 0, 0⟩⟩] =
      Except.ok (⟨(40 : ℚ) / 10 * (0.012 : ℚ), (40 : ℚ) / 10 * (0.06 : ℚ)⟩, 1) ∧
    (Lexer.init.setState CurrentState.General).internals.state =
      CurrentState.General ∧
    manage_size (Lexer.init.setState CurrentState.General)
      [⟨Structure.Number 40, ⟨0, 0, 0⟩⟩] =
      some (⟨⟨[], [], Option.none, Option.none,
          some ⟨(0.048 : ℚ), (0.24 : ℚ)⟩⟩,
        ⟨CurrentState.General, Option.none⟩⟩, Except.ok 1) := by
  refine ⟨by decide, ?_, by decide, ?_⟩
  · exact C8_size_directive.2.1 40 ⟨0, 0, 0⟩
      ⟨Structure.String "x".toList, ⟨0, 0, 0⟩⟩ [] (by decide)
  · exact C8_size_directive.2.2.2.2.2 (Lexer.init.setState CurrentState.General)
      ⟨0, 0, 0⟩ (by decide)

/-- C9: a Rotation directive in any state other than Figure returns an
error with the lexer (document, open slide, state) unchanged; in the
Figure state, with the last section a figure body, it reads one Number
`v`, sets that section's rotation to `v` and consumes one token. -/
theorem C9_rotation_gating :
    (∀ (lx : Lexer) (tokens : List Token),
      lx.internals.state ≠ CurrentState.Figure →
      manage_rotation lx tokens =
        some (lx,
          Except.error "Rotation does make sense only in a figure section.")) ∧
    (∀ (lx : Lexer) (sl : Slide) (secs : List Section) (sec : Section)
        (f : SectionFigure) (v : ℚ) (sp : TokenSpan) (rest : List Token),
      lx.internals.state = CurrentState.Figure →
      lx.internals.slide = some sl →
      sl.sections = secs ++ [sec] →
      sec.sec_main = some (SectionMain.Figure f) →
      manage_rotation lx (⟨Structure.Number v, sp⟩ :: rest) =
        some (lx.withSlide (some { sl with sections := secs ++
            [{ sec with sec_main := some (SectionMain.Figure
                { f with rotation := v }) }] }),
          Except.ok 1)) := by
  constructor
  · intro lx tokens h
    rcases lx with ⟨ss, st, sl⟩
    cases st <;> simp_all [manage_rotation]
  · intro lx sl secs sec f v sp rest h1 h2 h3 h4
    rcases lx with ⟨ss, st, slx⟩
    simp only at h1 h2
    subst h1; subst h2
    simp [manage_rotation, apply_slide, finishApply, h3, h4,
      List.getLast?_concat, List.dropLast_concat]

/-- Witness for C9: `:rt 90` errors in the fresh lexer, and succeeds on a
figure lexer. -/
theorem C9_rotation_gating_witness :
    Lexer.init.internals.state ≠ CurrentState.Figure ∧
    manage_rotation Lexer.init [⟨Structure.Number 90, ⟨0, 4, 6⟩⟩] =
      some (Lexer.init,
        Except.error "Rotation does make sense only in a figure section.") ∧
    manage_rotation (figureLexer "/p.png".toList)
      [⟨Structure.Number 90, ⟨0, 4, 6⟩⟩] =
      some ((figureLexer "/p.png".toList).withSlide (some ⟨Option.none,
          [⟨Option.none, Option.none,
            some (SectionMain.Figure ⟨"/p.png".toList, 90⟩)⟩]⟩),
        Except.ok 1) := by
  refine ⟨by decide, ?_, ?_⟩
  · exact C9_rotation_gating.1 Lexer.init [⟨Structure.Number 90, ⟨0, 4, 6⟩⟩]
      (by decide)
  · have h := C9_rotation_gating.2 (figureLexer "/p.png".toList)
      ⟨Option.none, [⟨Option.none, Option.none,
        some (SectionMain.Figure ⟨"/p.png".toList, 0⟩)⟩]⟩
      [] ⟨Option.none, Option.none,
        some (SectionMain.Figure ⟨"/p.png".toList, 0⟩)⟩
      ⟨"/p.png".toList, 0⟩ 90 ⟨0, 4, 6⟩ [] rfl rfl (by simp) rfl
    simpa using h

/-- C10: after any error-free `read_tokens` run from a fresh lexer the
invariant `Inv` holds (state `Text` → open slide with a text-bodied last
section; state `Figure` → open slide with a figure-bodied last section);
consequently the handlers that index the last section unchecked —
text-line, position, size, font-color, rotation — never panic under the
invariant. -/
theorem C10_interpreter_invariant :
    (∀ (env : Env) (base : List Char) (tokens : List Token) (lx' : Lexer),
      read_tokens env base Lexer.init tokens = some (lx', Except.ok ()) →
      Inv lx' = true) ∧
    (∀ (lx : Lexer) (el : List Char), Inv lx = true →
      manage_textline lx el ≠ Option.none) ∧
    (∀ (lx : Lexer) (tokens : List Token), Inv lx = true →
      manage_position lx tokens ≠ Option.none) ∧
    (∀ (lx : Lexer) (tokens : List Token), Inv lx = true →
      manage_size lx tokens ≠ Option.none) ∧
    (∀ (lx : Lexer) (tokens : List Token), Inv lx = true →
      manage_fontcolor lx tokens ≠ Option.none) ∧
    (∀ (lx : Lexer) (tokens : List Token), Inv lx = true →
      manage_rotation lx tokens ≠ Option.none) := by
  refine ⟨?_, manage_textline_no_panic, manage_position_no_panic,
    manage_size_no_panic, manage_fontcolor_no_panic,
    manage_rotation_no_panic⟩
  intro env base tokens lx' hrun
  exact read_tokens_inv env base tokens.length tokens le_rfl Lexer.init lx'
    rfl hrun

/-- Witness for C10: the run `:sl :tb` from a fresh lexer ends in
`textLexer`, which satisfies the invariant, so a following text line
cannot panic. -/
theorem C10_interpreter_invariant_witness :
    read_tokens noFileEnv "/d".toList Lexer.init
      [⟨Structure.Slide, ⟨0, 0, 3⟩⟩, ⟨Structure.TextBuffer, ⟨0, 4, 7⟩⟩] =
      some (textLexer, Except.ok ()) ∧
    Inv textLexer = true ∧
    manage_textline textLexer "hi".toList ≠ Option.none := by
  have hrun : read_tokens noFileEnv "/d".toList Lexer.init
      [⟨Structure.Slide, ⟨0, 0, 3⟩⟩, ⟨Structure.TextBuffer, ⟨0, 4, 7⟩⟩] =
      some (textLexer, Except.ok ()) := by
    simp [read_tokens, read_tokensStep, manage_slide, manage_textbuffer,
      apply_slide, finishApply, Lexer.init, Lexer.setState, Lexer.withSlide,
      Slideshow.default, Slide.default, Section.default, SectionText.default,
      textLexer]
  have hInv := C10_interpreter_invariant.1 noFileEnv "/d".toList _ _ hrun
  exact ⟨hrun, hInv,
    C10_interpreter_invariant.2.1 textLexer "hi".toList hInv⟩

end Slidy
